/-
Verification of the game-tracker library core (crates/game-tracker-core).

Shallow embedding of the data model, the Epic/Steam scanners, the SQLite
persistence helpers and the `GameService` orchestration, with theorems
settling the specification claims.

File-system reads, network calls and SQL execution are represented by
explicit parameters (existence predicates, directory listings, oracle
results), so every definition is executable; the sequencing and the
conditionals are translated directly from the Rust source.
-/
import Mathlib

namespace GameTracker

/-! ## Data model (crates/game-tracker-core/src/models.rs) -/

/-- Persisted game record (`models.rs`, `struct Game`).  Timestamp columns
(`added_date`, `last_played`) are plain strings in the Rust struct; here they
appear as they do in the struct.  `playtime_hours : Rat` stands for the `f32`
field: the code only ever stores the literal `0.0` into it and copies it, so
no floating-point arithmetic is modelled. -/
structure Game where
  id : Int
  title : String
  platform : String
  status : String
  description : Option String
  genre : Option String
  release_year : Option Int
  icon_path : Option String
  cover_url : Option String
  rawg_id : Option Int
  exe_path : Option String
  playtime_hours : Rat
  rating : Option Int
  added_date : String
  last_played : Option String
  source : Option String
  source_id : Option String
  install_path : Option String
  deriving DecidableEq, Repr

/-- Game discovered by a launcher scanner (`models.rs`, `struct DiscoveredGame`). -/
structure DiscoveredGame where
  title : String
  platform : String
  exe_path : Option String
  install_path : Option String
  source : String
  source_id : String
  deriving DecidableEq, Repr

/-- Input payload for creating a game (`models.rs`, `struct CreateGameInput`). -/
structure CreateGameInput where
  title : String
  platform : String
  status : String
  rawg_id : Option Int
  exe_path : Option String
  source : Option String
  source_id : Option String
  install_path : Option String
  deriving DecidableEq, Repr

/-- Summary of an indexing pass (`service.rs`, `struct IndexResult`). -/
structure IndexResult where
  discovered : Nat
  upserted : Nat
  deriving DecidableEq, Repr

/-! ## Path helpers

The scanners manipulate `std::path` values.  We model paths as strings with
an abstract separator `/`; `pathJoin` follows `PathBuf::join`: an absolute
right-hand side replaces the left-hand side, otherwise the two are joined
with a separator. -/

/-- `PathBuf::join`, over string paths with `/` as the abstract separator:
an absolute right-hand side (leading separator) replaces the left-hand side,
otherwise the two are joined, inserting a separator when one is missing. -/
def pathJoin (a b : String) : String :=
  if b.data.head? = some '/' then b
  else if a.data = [] ∨ a.data.getLast? = some '/' then a ++ b
  else a ++ "/" ++ b

/-- `Path::extension()`: the portion of the file name after the last `.`,
absent when there is no `.` or when the only `.` is the leading character
(hidden files such as `.item` have no extension). -/
def fileExt (name : String) : Option String :=
  let cs := name.data
  match (cs.reverse).findIdx? (· = '.') with
  | none => none
  | some j =>
    let i := cs.length - 1 - j
    if i = 0 then none else some ⟨cs.drop (i + 1)⟩

/-- Substring containment, the model of Rust `str::contains`. -/
def containsSubstr (hay needle : String) : Bool :=
  decide (needle.data <:+: hay.data)

/-! ## Epic scanner (crates/game-tracker-core/src/indexers/epic.rs) -/

/-- Decoded fields of an Epic `.item` manifest (`epic.rs`, `struct
EpicManifest`).  `b_is_application` carries `#[serde(default)]`, so an absent
flag decodes to `false`. -/
structure EpicManifest where
  display_name : Option String
  install_location : Option String
  launch_executable : Option String
  app_name : Option String
  b_is_application : Bool
  deriving DecidableEq, Repr

/-- `epic.rs::parse_manifest`, after the manifest has been read and decoded.
`fsExists` stands for `Path::exists` at scan time. -/
def parse_manifest (fsExists : String → Bool) (manifest : EpicManifest) :
    Option DiscoveredGame :=
  if !manifest.b_is_application then none
  else
    match manifest.display_name with
    | some n =>
      if n.isEmpty then none
      else
        match manifest.app_name with
        | some a =>
          if a.isEmpty then none
          else
            let install_path := manifest.install_location
            let exe_path :=
              match manifest.install_location, manifest.launch_executable with
              | some install, some launch =>
                let full := pathJoin install launch
                if fsExists full then some full else none
              | _, _ => none
            some { title := n, platform := "PC", exe_path := exe_path,
                   install_path := install_path, source := "epic",
                   source_id := a }
        | none => none
    | none => none

/-- A directory entry seen by the Epic scan: the file name, and the result of
reading + JSON-decoding it (`Except` error = unreadable file or malformed
JSON, the two failure paths of `parse_manifest`'s `?` operators). -/
structure EpicFile where
  name : String
  content : Except String EpicManifest
  deriving Repr

/-- Body of the `read_dir` loop in `epic.rs::scan_epic_games_from`: files
whose extension is not `item` are skipped, a manifest that fails to
read/decode is logged and skipped, an accepted manifest contributes its
discovery record. -/
def scanEpicFiles (fsExists : String → Bool) : List EpicFile → List DiscoveredGame
  | [] => []
  | f :: rest =>
    let tail := scanEpicFiles fsExists rest
    if fileExt f.name ≠ some "item" then tail
    else
      match f.content with
      | .error _ => tail
      | .ok manifest =>
        match parse_manifest fsExists manifest with
        | some game => game :: tail
        | none => tail

/-- `epic.rs::scan_epic_games_from`.  `dirIsDir` is `manifests_dir.is_dir()`;
`readDir` is the result of `std::fs::read_dir` (an `Err` propagates through
the `?`). -/
def scan_epic_games_from (fsExists : String → Bool) (dirIsDir : Bool)
    (readDir : Except String (List EpicFile)) :
    Except String (List DiscoveredGame) :=
  if !dirIsDir then .ok []
  else
    match readDir with
    | .error e => .error e
    | .ok files => .ok (scanEpicFiles fsExists files)

/-! ## Steam scanner (crates/game-tracker-core/src/indexers/steam.rs) -/

/-- Substrings excluding a `.exe` file from being the "main" executable
(`steam.rs::find_main_exe`). -/
def badExeSubstrings : List String :=
  ["unins", "redist", "setup", "crash", "ue4prereq", "dxsetup"]

/-- A directory entry accepted by `find_main_exe`: extension exactly `exe`,
and the lowercased file name contains none of the excluded substrings. -/
def isMainExeCandidate (name : String) : Bool :=
  fileExt name == some "exe" &&
    !(badExeSubstrings.any fun b => containsSubstr name.toLower b)

/-- The `for entry in entries` loop of `steam.rs::find_main_exe`: the first
`.exe` entry not matching an excluded substring is returned as a full path. -/
def findMainExeLoop (installPath : String) : List String → Option String
  | [] => none
  | name :: rest =>
    if fileExt name == some "exe" then
      if badExeSubstrings.any (fun b => containsSubstr name.toLower b) then
        findMainExeLoop installPath rest
      else some (pathJoin installPath name)
    else findMainExeLoop installPath rest

/-- `steam.rs::find_main_exe`.  `isDir` is `path.is_dir()`; `readDir` is
`std::fs::read_dir(path).ok()` (`none` = read failure), listing file names
directly under the install directory in directory order. -/
def find_main_exe (isDir : Bool) (readDir : Option (List String))
    (installPath : String) : Option String :=
  if !isDir then none
  else
    match readDir with
    | none => none
    | some entries => findMainExeLoop installPath entries

/-! ## Persistence layer (crates/game-tracker-core/src/db.rs)

The SQLite `games` table is a list of rows plus the next rowid.  Timestamp
columns are modelled as `Nat` clock values (`added_date`), `Option Nat`
(`last_played`); SQLite's `CURRENT_TIMESTAMP` strings are totally ordered by
time, which the `Nat` order captures. -/

/-- A row of the `games` table.  Column set from `db.rs::insert_game` and
`models.rs::Game` (`sqlx::FromRow`). -/
structure Row where
  id : Int
  title : String
  platform : String
  status : String
  description : Option String
  genre : Option String
  release_year : Option Int
  icon_path : Option String
  cover_url : Option String
  rawg_id : Option Int
  exe_path : Option String
  playtime_hours : Rat
  rating : Option Int
  added_date : Nat
  last_played : Option Nat
  source : Option String
  source_id : Option String
  install_path : Option String
  deriving DecidableEq, Repr

/-- The `games` table state: rows in rowid (insertion) order, and the next
rowid SQLite will assign. -/
structure DB where
  rows : List Row
  nextId : Int
  deriving DecidableEq, Repr

/-- SQL `column = ?` over nullable text columns: comparing with `NULL` on
either side never matches. -/
def sqlEqOpt (column bound : Option String) : Bool :=
  match column, bound with
  | some x, some y => x == y
  | _, _ => false

/-- SQL ordering on a nullable timestamp column: `NULL` sorts below every
value (SQLite places `NULL`s last under `ORDER BY ... DESC`). -/
def sqlLeOptNat (a b : Option Nat) : Bool :=
  match a, b with
  | none, _ => true
  | some _, none => false
  | some x, some y => x ≤ y

/-- `db.rs::insert_game`.  The `INSERT` lists only the thirteen bound
columns; the remaining columns take their schema defaults.
Modelled from the spec: the `migrations/` schema files are not among the
sources; per spec §6 the defaults are `playtime_hours = 0`,
`added_date = insert time`, and `NULL` for `rating` and `last_played`.
Returns the updated table and `last_insert_rowid()`. -/
def insert_game (db : DB) (now : Nat) (g : Game) : DB × Int :=
  let row : Row :=
    { id := db.nextId, title := g.title, platform := g.platform,
      status := g.status, description := g.description, genre := g.genre,
      release_year := g.release_year, icon_path := g.icon_path,
      cover_url := g.cover_url, rawg_id := g.rawg_id, exe_path := g.exe_path,
      playtime_hours := 0, rating := none, added_date := now,
      last_played := none, source := g.source, source_id := g.source_id,
      install_path := g.install_path }
  ({ rows := db.rows ++ [row], nextId := db.nextId + 1 }, db.nextId)

/-- Key predicate of `db.rs::upsert_game_by_source`:
`WHERE source = ? AND source_id = ?`. -/
def sourceKeyMatches (g : Game) (r : Row) : Bool :=
  sqlEqOpt r.source g.source && sqlEqOpt r.source_id g.source_id

/-- `db.rs::upsert_game_by_source`: look up an existing row by
`(source, source_id)`; update its `install_path`/`exe_path`/`title` when
found (`UPDATE ... WHERE id = ?`), insert otherwise.  Returns the affected
game id. -/
def upsert_game_by_source (db : DB) (now : Nat) (g : Game) : DB × Int :=
  match db.rows.find? (sourceKeyMatches g) with
  | some existing =>
    ({ db with
        rows := db.rows.map fun r =>
          if r.id == existing.id then
            { r with install_path := g.install_path, exe_path := g.exe_path,
                     title := g.title }
          else r },
     existing.id)
  | none => insert_game db now g

/-- `db.rs::update_game_status`:
`UPDATE games SET status = ?, last_played = CURRENT_TIMESTAMP WHERE id = ?`.
Affects every row matching the id (zero rows is a successful no-op). -/
def update_game_status (db : DB) (now : Nat) (id : Int) (status : String) : DB :=
  { db with
      rows := db.rows.map fun r =>
        if r.id == id then { r with status := status, last_played := some now }
        else r }

/-- `db.rs::get_all_games`: `SELECT * FROM games ORDER BY added_date DESC`. -/
def get_all_games (db : DB) : List Row :=
  db.rows.mergeSort fun a b => b.added_date ≤ a.added_date

/-- `db.rs::get_games_by_status`:
`SELECT * FROM games WHERE status = ? ORDER BY last_played DESC`. -/
def get_games_by_status (db : DB) (status : String) : List Row :=
  (db.rows.filter fun r => r.status == status).mergeSort
    fun a b => sqlLeOptNat b.last_played a.last_played

/-- `db.rs::delete_game`: `DELETE FROM games WHERE id = ?`. -/
def delete_game (db : DB) (id : Int) : DB :=
  { db with rows := db.rows.filter fun r => !(r.id == id) }

/-! ## RAWG catalog client payloads (crates/game-tracker-core/src/rawg.rs) -/

/-- Genre entry from RAWG metadata (`rawg.rs`, `struct Genre`). -/
structure Genre where
  name : String
  deriving DecidableEq, Repr

/-- RAWG game payload (`rawg.rs`, `struct RawgGame`). -/
structure RawgGame where
  id : Int
  name : String
  background_image : Option String
  released : Option String
  genres : List Genre
  description_raw : Option String
  deriving DecidableEq, Repr

/-! ## Library service (crates/game-tracker-core/src/service.rs)

Network and icon I/O are passed in as oracle parameters:
`getGameDetails` is `RawgClient::get_game_details` (its `Err` is a transport
or decode failure), `downloadOk` is the outcome of
`icon_extract::download_icon`, `extractOk` the outcome of
`icon_extract::extract_exe_icon` for given exe/output paths, and
`insertFails` a storage failure of the final `db::insert_game`. -/

/-- `service.rs::GameService::create_game`, translated statement by
statement.  Returns the updated table and the record handed back to the
caller.  Note the source discards the download result
(`let _ = icon_extract::download_icon(...)`). -/
def create_game (getGameDetails : Int → Except String RawgGame)
    (downloadOk : Bool) (extractOk : String → String → Bool)
    (insertFails : Bool) (iconsDir : String) (db : DB) (now : Nat)
    (input : CreateGameInput) : Except String (DB × Game) :=
  let game : Game :=
    { id := 0, title := input.title, platform := input.platform,
      status := input.status, description := none, genre := none,
      release_year := none, icon_path := none, cover_url := none,
      rawg_id := none, exe_path := none, playtime_hours := 0, rating := none,
      added_date := "", last_played := none, source := input.source,
      source_id := input.source_id, install_path := input.install_path }
  -- Enrich from RAWG if a match was selected
  let game :=
    match input.rawg_id with
    | some rawgId =>
      match getGameDetails rawgId with
      | .ok rg =>
        let g1 :=
          { game with description := rg.description_raw,
                      genre := rg.genres.head?.map Genre.name,
                      cover_url := rg.background_image,
                      rawg_id := some rawgId }
        match rg.background_image with
        | some _imgUrl =>
          let iconPathStr := pathJoin iconsDir (toString rawgId ++ ".jpg")
          -- `let _ = download_icon(img_url, &icon_path_str)`: result dropped
          let _ := downloadOk
          { g1 with icon_path := some iconPathStr }
        | none => g1
      | .error _ => game
    | none => game
  -- Fallback: extract .exe icon for PC games
  let game :=
    if game.icon_path.isNone then
      match input.exe_path with
      | some exePath =>
        if !exePath.isEmpty then
          let iconPathStr :=
            pathJoin iconsDir (game.title.replace " " "_" ++ ".ico")
          if extractOk exePath iconPathStr then
            { game with icon_path := some iconPathStr,
                        exe_path := some exePath }
          else game
        else game
      | none => game
    else game
  if insertFails then .error "insert failed"
  else
    let (db2, id) := insert_game db now game
    .ok (db2, { game with id := id })

/-- `service.rs::GameService::filter_games`: an empty status falls back to
`get_all_games`, otherwise `get_games_by_status`. -/
def filter_games (db : DB) (status : String) : List Row :=
  if status.isEmpty then get_all_games db else get_games_by_status db status

/-- `service.rs::discovered_to_game`: minimal record built for the upsert
during indexing (status forced to "Backlog", no enrichment). -/
def discovered_to_game (dg : DiscoveredGame) : Game :=
  { id := 0, title := dg.title, platform := dg.platform, status := "Backlog",
    description := none, genre := none, release_year := none,
    icon_path := none, cover_url := none, rawg_id := none,
    exe_path := dg.exe_path, playtime_hours := 0, rating := none,
    added_date := "", last_played := none, source := some dg.source,
    source_id := some dg.source_id, install_path := dg.install_path }

/-- 2^32, the modulus of the `u32` counters in `IndexResult`. -/
def U32 : Nat := 4294967296

/-- One source's upsert loop in `service.rs::index_all`: each discovered
game is converted and upserted; a per-entry failure (`upsert` returns
`none`) is logged and skipped, a success bumps `total_new`.  Returns the
final table and the success count. -/
def runUpserts (upsert : DB → Game → Option (DB × Int)) :
    List DiscoveredGame → DB → DB × Nat
  | [], db => (db, 0)
  | dg :: rest, db =>
    match upsert db (discovered_to_game dg) with
    | some (db1, _id) =>
      let (db2, n) := runUpserts upsert rest db1
      (db2, n + 1)
    | none => runUpserts upsert rest db

/-- `service.rs::GameService::index_all`.  `steamScan` / `epicScan` are the
two scanner results; a scanner `Err` is logged and contributes nothing.  The
`u32` counters wrap modulo 2^32 (`len() as u32` and `+=`).  The pass itself
always returns `Ok`. -/
def index_all (upsert : DB → Game → Option (DB × Int))
    (steamScan epicScan : Except String (List DiscoveredGame)) (db : DB) :
    Except String (DB × IndexResult) :=
  let step1 :=
    match steamScan with
    | .ok steamGames =>
      let (db1, n) := runUpserts upsert steamGames db
      (steamGames.length % U32, db1, n)
    | .error _ => (0, db, 0)
  let step2 :=
    match epicScan with
    | .ok epicGames =>
      let (db2, n) := runUpserts upsert epicGames step1.2.1
      (epicGames.length % U32, db2, n)
    | .error _ => (0, step1.2.1, 0)
  .ok (step2.2.1,
    { discovered := (step1.1 + step2.1) % U32,
      upserted := (step1.2.2 + step2.2.2) % U32 })

/-- The number of upsert operations in one source's loop that succeed:
the specification's reading of the `upserted` counter. -/
def upsertSuccessCount (upsert : DB → Game → Option (DB × Int)) :
    List DiscoveredGame → DB → Nat
  | [], _ => 0
  | dg :: rest, db =>
    match upsert db (discovered_to_game dg) with
    | some (db1, _id) => upsertSuccessCount upsert rest db1 + 1
    | none => upsertSuccessCount upsert rest db

/-! ## Concrete sample data (used to instantiate theorems on closed inputs) -/

/-- A sample upsert oracle that always succeeds by inserting. -/
def alwaysInsert : DB → Game → Option (DB × Int) :=
  fun db g => some (insert_game db 0 g)

/-- A sample Epic discovery record. -/
def dgEpicA : DiscoveredGame :=
  { title := "A", platform := "PC", exe_path := none, install_path := none,
    source := "epic", source_id := "AppA" }

/-- A sample RAWG details payload carrying a cover URL. -/
def rgCeleste : RawgGame :=
  { id := 77, name := "Celeste",
    background_image := some "https://rawg.example/celeste.jpg",
    released := some "2018-01-25", genres := [⟨"Platformer"⟩],
    description_raw := some "A narrative platformer." }

/-- A sample create input selecting RAWG match 77, with no executable. -/
def inputRawg77 : CreateGameInput :=
  { title := "Celeste", platform := "PC", status := "Backlog",
    rawg_id := some 77, exe_path := none, source := none, source_id := none,
    install_path := none }

/-- A sample create input with no RAWG id and no executable path. -/
def inputPlain : CreateGameInput :=
  { title := "Outer Wilds", platform := "PC", status := "Playing",
    rawg_id := none, exe_path := none, source := none, source_id := none,
    install_path := none }

/-- A sample persisted row (a Steam-discovered game with some enrichment). -/
def row0 : Row :=
  { id := 1, title := "Hades", platform := "PC", status := "Backlog",
    description := none, genre := some "Roguelike", release_year := some 2020,
    icon_path := none, cover_url := none, rawg_id := none, exe_path := none,
    playtime_hours := 0, rating := none, added_date := 10,
    last_played := some 3, source := some "steam", source_id := some "41",
    install_path := none }

/-- A second sample row with a different id and source key. -/
def row1 : Row :=
  { row0 with id := 2, title := "Celeste", source_id := some "43",
              last_played := none }

/-- A sample discovery-shaped game record keyed `("steam", "42")`. -/
def gSteam42 : Game :=
  { id := 0, title := "Old Title", platform := "PC", status := "Backlog",
    description := none, genre := some "RPG", release_year := none,
    icon_path := none, cover_url := none, rawg_id := none,
    exe_path := some "C:/steam/42/game.exe", playtime_hours := 0,
    rating := none, added_date := "", last_played := none,
    source := some "steam", source_id := some "42",
    install_path := some "C:/steam/42" }

/-! ## Helper lemmas -/

/-- Inversion for `parse_manifest`: a produced record pins down the manifest
fields and the record's shape. -/
theorem parse_manifest_eq_some_iff (fs : String → Bool) (m : EpicManifest)
    (g : DiscoveredGame) (h : parse_manifest fs m = some g) :
    m.b_is_application = true ∧
    ∃ n a, m.display_name = some n ∧ n ≠ "" ∧ m.app_name = some a ∧ a ≠ "" ∧
      g = { title := n, platform := "PC",
            exe_path :=
              match m.install_location, m.launch_executable with
              | some install, some launch =>
                if fs (pathJoin install launch) then
                  some (pathJoin install launch)
                else none
              | _, _ => none,
            install_path := m.install_location, source := "epic",
            source_id := a } := by
  unfold parse_manifest at h
  split at h
  · exact absurd h (by simp)
  · rename_i hb
    constructor
    · revert hb
      cases m.b_is_application <;> simp
    · split at h
      · rename_i n hn
        split at h
        · exact absurd h (by simp)
        · rename_i hne
          split at h
          · rename_i a ha
            split at h
            · exact absurd h (by simp)
            · rename_i hae
              refine ⟨n, a, hn, ?_, ha, ?_, ?_⟩
              · simpa [String.isEmpty_iff] using hne
              · simpa [String.isEmpty_iff] using hae
              · simpa using h.symm
          · exact absurd h (by simp)
      · exact absurd h (by simp)

/-- The Steam executable-search loop returns the first accepted entry. -/
theorem findMainExeLoop_eq_find? (dir : String) (entries : List String) :
    findMainExeLoop dir entries =
      (entries.find? isMainExeCandidate).map (pathJoin dir) := by
  induction entries with
  | nil => rfl
  | cons name rest ih =>
    simp only [findMainExeLoop]
    by_cases hext : (fileExt name == some "exe") = true
    · by_cases hbad :
        (badExeSubstrings.any fun b => containsSubstr name.toLower b) = true
      · have hc : isMainExeCandidate name = false := by
          simp [isMainExeCandidate, hbad]
        rw [if_pos hext, if_pos hbad,
          List.find?_cons_of_neg _ (by simp [hc]), ih]
      · have hc : isMainExeCandidate name = true := by
          simp [isMainExeCandidate, hext, hbad]
        rw [if_pos hext, if_neg hbad, List.find?_cons_of_pos _ hc]
        rfl
    · have hc : isMainExeCandidate name = false := by
        simp [isMainExeCandidate, Bool.eq_false_iff.mpr hext]
      rw [if_neg hext, List.find?_cons_of_neg _ (by simp [hc]), ih]

/-- A scan-level parse failure is skipped: deleting the failing file from the
listing does not change the scan's output. -/
theorem scanEpicFiles_skip_error (fs : String → Bool) (bad : EpicFile)
    (hext : fileExt bad.name = some "item") (e : String)
    (herr : bad.content = .error e) (pre post : List EpicFile) :
    scanEpicFiles fs (pre ++ bad :: post) = scanEpicFiles fs (pre ++ post) := by
  induction pre with
  | nil => simp [scanEpicFiles, hext, herr]
  | cons f rest ih => simp [scanEpicFiles, ih]

/-- A map that fixes every element of a list leaves the list unchanged. -/
theorem map_eq_self_of {α : Type} (f : α → α) (l : List α)
    (h : ∀ x ∈ l, f x = x) : l.map f = l := by
  induction l with
  | nil => rfl
  | cons a t ih =>
    simp [h a (by simp), ih fun x hx => h x (by simp [hx])]

/-- Row-wise description of a mapped table: relating each row to its image. -/
theorem forall₂_map_self {α : Type} (f : α → α) (P : α → α → Prop)
    (l : List α) (h : ∀ x ∈ l, P x (f x)) : List.Forall₂ P l (l.map f) := by
  induction l with
  | nil => exact List.Forall₂.nil
  | cons a t ih =>
    exact List.Forall₂.cons (h a (by simp))
      (ih fun x hx => h x (by simp [hx]))

/-! ## Claim theorems -/

/-- C4: an Epic manifest with the is-application flag false, or with an
empty/absent display name or app name, produces no discovery record; every
accepted manifest yields exactly one record with platform "PC", source
"epic", source_id the app name and title the display name. -/
theorem epic_parse_manifest_filters (fs : String → Bool) (m : EpicManifest) :
    ((m.b_is_application = false ∨ (∀ n, m.display_name = some n → n = "") ∨
        (∀ a, m.app_name = some a → a = "")) →
      parse_manifest fs m = none) ∧
    (∀ n a, m.b_is_application = true → m.display_name = some n → n ≠ "" →
      m.app_name = some a → a ≠ "" →
      ∃ g, parse_manifest fs m = some g ∧ g.title = n ∧ g.platform = "PC" ∧
        g.source = "epic" ∧ g.source_id = a) := by
  have hemp : ("" : String).isEmpty = true := by decide
  constructor
  · intro h
    cases hb : m.b_is_application with
    | false => simp [parse_manifest, hb]
    | true =>
      rcases h with h | h | h
      · rw [hb] at h
        exact absurd h (by simp)
      · cases hd : m.display_name with
        | none => simp [parse_manifest, hb, hd]
        | some n =>
          have hn : n = "" := h n hd
          subst hn
          simp [parse_manifest, hb, hd, hemp]
      · cases hd : m.display_name with
        | none => simp [parse_manifest, hb, hd]
        | some n =>
          cases ha : m.app_name with
          | none => simp [parse_manifest, hb, hd, ha]
          | some a =>
            have haa : a = "" := h a ha
            subst haa
            by_cases hne : n.isEmpty <;>
              simp [parse_manifest, hb, hd, ha, hne, hemp]
  · intro n a hb hd hn ha haa
    have hne : n.isEmpty = false := by
      rw [Bool.eq_false_iff]
      simpa [String.isEmpty_iff] using hn
    have hae : a.isEmpty = false := by
      rw [Bool.eq_false_iff]
      simpa [String.isEmpty_iff] using haa
    refine ⟨{ title := n, platform := "PC",
              exe_path :=
                match m.install_location, m.launch_executable with
                | some install, some launch =>
                  if fs (pathJoin install launch) then
                    some (pathJoin install launch)
                  else none
                | _, _ => none,
              install_path := m.install_location, source := "epic",
              source_id := a }, ?_, rfl, rfl, rfl, rfl⟩
    simp [parse_manifest, hb, hd, ha, hne, hae]

/-- C4 witness: a concrete accepted manifest yields its discovery record. -/
theorem epic_parse_manifest_filters_witness :
    ∃ g, parse_manifest (fun _ => false)
        { display_name := some "Test Game One",
          install_location := some "C:/Games/TestGameOne",
          launch_executable := some "Game.exe",
          app_name := some "TestGameOne123", b_is_application := true } =
        some g ∧
      g.title = "Test Game One" ∧ g.platform = "PC" ∧ g.source = "epic" ∧
      g.source_id = "TestGameOne123" :=
  (epic_parse_manifest_filters (fun _ => false) _).2 "Test Game One"
    "TestGameOne123" rfl rfl (by decide) rfl (by decide)

/-- C5: for an accepted Epic manifest, when install location and launch
executable are both present the record's executable path is their join
exactly when that join exists on disk at scan time; when either is absent
the executable path is absent. -/
theorem epic_exe_path_spec (fs : String → Bool) (m : EpicManifest)
    (g : DiscoveredGame) (h : parse_manifest fs m = some g) :
    (∀ install launch, m.install_location = some install →
      m.launch_executable = some launch →
      g.exe_path =
        if fs (pathJoin install launch) then some (pathJoin install launch)
        else none) ∧
    ((m.install_location = none ∨ m.launch_executable = none) →
      g.exe_path = none) := by
  obtain ⟨-, n, a, -, -, -, -, hg⟩ := parse_manifest_eq_some_iff fs m g h
  subst hg
  constructor
  · intro install launch hi hl
    simp [hi, hl]
  · rintro (hi | hl)
    · simp [hi]
    · rcases hil : m.install_location with - | install <;> simp [hl, hil]

/-- C5 witness: a concrete manifest whose joined executable path exists on
disk carries that join as its executable path. -/
theorem epic_exe_path_spec_witness :
    (({ title := "G", platform := "PC",
        exe_path := some (pathJoin "C:/Games/G" "Bin/Game.exe"),
        install_path := some "C:/Games/G", source := "epic",
        source_id := "G123" } : DiscoveredGame).exe_path =
      if (fun _ => true) (pathJoin "C:/Games/G" "Bin/Game.exe") then
        some (pathJoin "C:/Games/G" "Bin/Game.exe")
      else none) :=
  (epic_exe_path_spec (fun _ => true)
      { display_name := some "G", install_location := some "C:/Games/G",
        launch_executable := some "Bin/Game.exe", app_name := some "G123",
        b_is_application := true }
      _ (by simp [parse_manifest]
            exact ⟨by decide, by decide⟩)).1 "C:/Games/G" "Bin/Game.exe" rfl
    rfl

/-- C6: the Epic scan of a nonexistent manifest directory returns a
successful empty result; a listed scan always succeeds; and a malformed
(unreadable or undecodable) `.item` file is skipped while the remaining
files are still scanned. -/
theorem epic_scan_resilience (fs : String → Bool) :
    (∀ readDir, scan_epic_games_from fs false readDir = .ok []) ∧
    (∀ files, scan_epic_games_from fs true (.ok files) =
      .ok (scanEpicFiles fs files)) ∧
    (∀ pre post bad, fileExt bad.name = some "item" →
      (∃ e, bad.content = .error e) →
      scan_epic_games_from fs true (.ok (pre ++ bad :: post)) =
        scan_epic_games_from fs true (.ok (pre ++ post))) := by
  refine ⟨fun readDir => rfl, fun files => rfl, ?_⟩
  intro pre post bad hext ⟨e, herr⟩
  show Except.ok _ = Except.ok _
  rw [scanEpicFiles_skip_error fs bad hext e herr pre post]

/-- C6 witness: with a concrete listing holding one well-formed manifest
before and one after a malformed file, the malformed file is skipped. -/
theorem epic_scan_resilience_witness :
    scan_epic_games_from (fun _ => false) true
        (.ok [⟨"a.item", .ok ⟨some "A", none, none, some "AppA", true⟩⟩,
              ⟨"bad.item", .error "malformed JSON"⟩,
              ⟨"b.item", .ok ⟨some "B", none, none, some "AppB", true⟩⟩]) =
      scan_epic_games_from (fun _ => false) true
        (.ok [⟨"a.item", .ok ⟨some "A", none, none, some "AppA", true⟩⟩,
              ⟨"b.item", .ok ⟨some "B", none, none, some "AppB", true⟩⟩]) :=
  (epic_scan_resilience (fun _ => false)).2.2
    [⟨"a.item", .ok ⟨some "A", none, none, some "AppA", true⟩⟩]
    [⟨"b.item", .ok ⟨some "B", none, none, some "AppB", true⟩⟩]
    ⟨"bad.item", .error "malformed JSON"⟩ (by decide)
    ⟨"malformed JSON", rfl⟩

/-- C9: the Steam main-executable search returns the first file directly
under the install directory with extension `exe` whose lowercased name
contains none of the excluded substrings, and nothing when the directory is
missing, unreadable, or holds no such file. -/
theorem steam_find_main_exe_spec (dir : String) :
    (∀ readDir, find_main_exe false readDir dir = none) ∧
    find_main_exe true none dir = none ∧
    (∀ entries, find_main_exe true (some entries) dir =
      (entries.find? isMainExeCandidate).map (pathJoin dir)) := by
  refine ⟨fun readDir => rfl, rfl, fun entries => ?_⟩
  show findMainExeLoop dir entries = _
  exact findMainExeLoop_eq_find? dir entries

/-- C10: filtering by the empty status string returns the full library in
added-date-descending order (the list-all result), not the set of rows whose
status is the empty string. -/
theorem filter_games_empty_spec (db : DB) :
    filter_games db "" = get_all_games db ∧
    (get_all_games db).Perm db.rows ∧
    (get_all_games db).Pairwise fun a b => b.added_date ≤ a.added_date := by
  refine ⟨rfl, List.mergeSort_perm db.rows _, ?_⟩
  have hs := @List.sorted_mergeSort Row
    (fun a b => decide (b.added_date ≤ a.added_date))
    (fun a b c hab hbc => by
      simp only [decide_eq_true_eq] at *
      omega)
    (fun a b => by
      simp only [Bool.or_eq_true, decide_eq_true_eq]
      omega)
    db.rows
  exact hs.imp fun h => of_decide_eq_true h

/-- C8: the status update sets the matching row's status and stamps its
last-played timestamp with the current time (greater than or equal to any
prior value under a monotone clock), leaves every other field of the row and
every other row unchanged, and is a successful no-op when no row has the
identifier. -/
theorem update_game_status_spec (db : DB) (now : Nat) (id : Int)
    (status : String)
    (hclock : ∀ r ∈ db.rows, ∀ t, r.last_played = some t → t ≤ now) :
    List.Forall₂ (fun r r' =>
      (r.id ≠ id → r' = r) ∧
      (r.id = id → r'.status = status ∧ r'.last_played = some now ∧
        (∀ t, r.last_played = some t → t ≤ now) ∧
        r'.id = r.id ∧ r'.title = r.title ∧ r'.platform = r.platform ∧
        r'.description = r.description ∧ r'.genre = r.genre ∧
        r'.release_year = r.release_year ∧ r'.icon_path = r.icon_path ∧
        r'.cover_url = r.cover_url ∧ r'.rawg_id = r.rawg_id ∧
        r'.exe_path = r.exe_path ∧
        r'.playtime_hours = r.playtime_hours ∧ r'.rating = r.rating ∧
        r'.added_date = r.added_date ∧ r'.source = r.source ∧
        r'.source_id = r.source_id ∧ r'.install_path = r.install_path))
      db.rows (update_game_status db now id status).rows ∧
    ((∀ r ∈ db.rows, r.id ≠ id) →
      update_game_status db now id status = db) ∧
    (update_game_status db now id status).nextId = db.nextId := by
  refine ⟨?_, ?_, rfl⟩
  · apply forall₂_map_self
    intro r hr
    constructor
    · intro hne
      simp [hne]
    · intro heq
      refine ⟨?_, ?_, hclock r hr, ?_, ?_, ?_, ?_, ?_, ?_, ?_, ?_, ?_, ?_,
        ?_, ?_, ?_, ?_, ?_, ?_⟩ <;> simp [heq]
  · intro hall
    have hmap : (db.rows.map fun r =>
        if r.id == id then { r with status := status, last_played := some now }
        else r) = db.rows :=
      map_eq_self_of _ _ fun r hr => by simp [hall r hr]
    show ({ db with rows := _ } : DB) = db
    rw [hmap]

/-- C8 witness: on a concrete two-row table, updating a nonexistent id is a
successful no-op. -/
theorem update_game_status_spec_witness :
    update_game_status { rows := [row0, row1], nextId := 3 } 7 99 "Playing" =
      { rows := [row0, row1], nextId := 3 } :=
  (update_game_status_spec { rows := [row0, row1], nextId := 3 } 7 99
    "Playing" (by decide)).2.1 (by decide)

/-- C2: upserting by `(source, source_id)` updates only `install_path`,
`exe_path` and `title` of the matching row, leaving its other fields and all
other rows unchanged; with no matching row a new row is inserted; and
upserting twice with the same key and a changed title yields exactly one row
with that key, whose title is the second value and whose genre is the value
set by the first call. -/
theorem upsert_game_by_source_spec (db : DB) (now : Nat) (g : Game) :
    (∀ r0, db.rows.find? (sourceKeyMatches g) = some r0 →
      (upsert_game_by_source db now g).2 = r0.id ∧
      (upsert_game_by_source db now g).1.nextId = db.nextId ∧
      List.Forall₂ (fun r r' =>
        (r.id ≠ r0.id → r' = r) ∧
        (r.id = r0.id → r'.install_path = g.install_path ∧
          r'.exe_path = g.exe_path ∧ r'.title = g.title ∧
          r'.id = r.id ∧ r'.platform = r.platform ∧ r'.status = r.status ∧
          r'.description = r.description ∧ r'.genre = r.genre ∧
          r'.release_year = r.release_year ∧ r'.icon_path = r.icon_path ∧
          r'.cover_url = r.cover_url ∧ r'.rawg_id = r.rawg_id ∧
          r'.playtime_hours = r.playtime_hours ∧ r'.rating = r.rating ∧
          r'.added_date = r.added_date ∧ r'.last_played = r.last_played ∧
          r'.source = r.source ∧ r'.source_id = r.source_id))
        db.rows (upsert_game_by_source db now g).1.rows) ∧
    (db.rows.find? (sourceKeyMatches g) = none →
      ∃ r, (upsert_game_by_source db now g).1.rows = db.rows ++ [r] ∧
        r.id = db.nextId ∧ r.title = g.title ∧ r.source = g.source ∧
        r.source_id = g.source_id ∧ r.install_path = g.install_path ∧
        r.exe_path = g.exe_path ∧ r.status = g.status ∧ r.genre = g.genre ∧
        (upsert_game_by_source db now g).2 = db.nextId) ∧
    (∀ g2, g2.source = g.source → g2.source_id = g.source_id →
      g.source ≠ none → g.source_id ≠ none →
      db.rows.countP (sourceKeyMatches g) = 0 →
      (∀ r ∈ db.rows, r.id ≠ db.nextId) →
      ((upsert_game_by_source (upsert_game_by_source db now g).1 now
          g2).1.rows.countP (sourceKeyMatches g2) = 1 ∧
        ∀ r ∈ (upsert_game_by_source (upsert_game_by_source db now g).1 now
            g2).1.rows,
          sourceKeyMatches g2 r = true →
          r.title = g2.title ∧ r.genre = g.genre)) := by
  refine ⟨?_, ?_, ?_⟩
  · intro r0 hfind
    have h1 : upsert_game_by_source db now g =
        ({ db with rows := db.rows.map fun r =>
            if r.id == r0.id then
              { r with install_path := g.install_path,
                       exe_path := g.exe_path, title := g.title }
            else r }, r0.id) := by
      simp only [upsert_game_by_source, hfind]
    rw [h1]
    refine ⟨rfl, rfl, ?_⟩
    apply forall₂_map_self
    intro r hr
    constructor
    · intro hne
      simp [hne]
    · intro heq
      refine ⟨?_, ?_, ?_, ?_, ?_, ?_, ?_, ?_, ?_, ?_, ?_, ?_, ?_, ?_, ?_,
        ?_, ?_, ?_⟩ <;> simp [heq]
  · intro hfind
    have h1 : upsert_game_by_source db now g = insert_game db now g := by
      simp only [upsert_game_by_source, hfind]
    rw [h1]
    exact ⟨_, rfl, rfl, rfl, rfl, rfl, rfl, rfl, rfl, rfl, rfl⟩
  · intro g2 hs hsid hsrc hsid2 hcount hfresh
    obtain ⟨s, hs0⟩ := Option.ne_none_iff_exists'.mp hsrc
    obtain ⟨sid, hsid0⟩ := Option.ne_none_iff_exists'.mp hsid2
    have hnomatch : ∀ r ∈ db.rows, ¬sourceKeyMatches g r = true :=
      List.countP_eq_zero.mp hcount
    have hfind : db.rows.find? (sourceKeyMatches g) = none :=
      List.find?_eq_none.mpr hnomatch
    set nr : Row :=
      { id := db.nextId, title := g.title, platform := g.platform,
        status := g.status, description := g.description, genre := g.genre,
        release_year := g.release_year, icon_path := g.icon_path,
        cover_url := g.cover_url, rawg_id := g.rawg_id,
        exe_path := g.exe_path, playtime_hours := 0, rating := none,
        added_date := now, last_played := none, source := g.source,
        source_id := g.source_id, install_path := g.install_path } with hnr
    have h1 : upsert_game_by_source db now g =
        ({ rows := db.rows ++ [nr], nextId := db.nextId + 1 }, db.nextId) := by
      simp only [upsert_game_by_source, hfind, insert_game]
    have hkeyfun : sourceKeyMatches g2 = sourceKeyMatches g := by
      funext r
      simp [sourceKeyMatches, hs, hsid]
    have hmatchnr : sourceKeyMatches g nr = true := by
      simp [sourceKeyMatches, sqlEqOpt, hnr, hs0, hsid0]
    have hfind2 : (db.rows ++ [nr]).find? (sourceKeyMatches g2) = some nr := by
      rw [hkeyfun, List.find?_append, hfind, List.find?_cons_of_pos _ hmatchnr]
      rfl
    have h2 : upsert_game_by_source
        { rows := db.rows ++ [nr], nextId := db.nextId + 1 } now g2 =
        ({ rows := (db.rows ++ [nr]).map fun r =>
            if r.id == nr.id then
              { r with install_path := g2.install_path,
                       exe_path := g2.exe_path, title := g2.title }
            else r,
           nextId := db.nextId + 1 }, nr.id) := by
      simp only [upsert_game_by_source, hfind2]
    have hmapid : (db.rows.map fun r =>
        if r.id == nr.id then
          { r with install_path := g2.install_path, exe_path := g2.exe_path,
                   title := g2.title }
        else r) = db.rows :=
      map_eq_self_of _ _ fun r hr => by
        have hne : (r.id == nr.id) = false := by
          simp only [hnr]
          simpa using hfresh r hr
        simp [hne]
    have hmatchunr : sourceKeyMatches g2
        ({ nr with install_path := g2.install_path, exe_path := g2.exe_path,
                   title := g2.title }) = true := by
      simp [sourceKeyMatches, sqlEqOpt, hnr, hs, hsid, hs0, hsid0]
    rw [h1, h2]
    simp only [List.map_append, hmapid, List.map_cons, List.map_nil,
      beq_self_eq_true, if_true]
    constructor
    · rw [List.countP_append, hkeyfun, hcount, List.countP_cons,
        List.countP_nil]
      simp [hkeyfun ▸ hmatchunr]
    · intro r hr hmatch
      rcases List.mem_append.mp hr with hmem | hmem
      · rw [hkeyfun] at hmatch
        exact absurd hmatch (hnomatch r hmem)
      · have hrow := List.mem_singleton.mp hmem
        subst hrow
        exact ⟨rfl, rfl⟩

/-- C2 witness: a concrete double upsert with the same `("steam", "42")` key
and a changed title yields exactly one row with that key, carrying the
second title and the first call's genre. -/
theorem upsert_game_by_source_spec_witness :
    (upsert_game_by_source
        (upsert_game_by_source { rows := [row0], nextId := 5 } 20
          gSteam42).1 20 { gSteam42 with title := "New Title" }).1.rows.countP
      (sourceKeyMatches { gSteam42 with title := "New Title" }) = 1 ∧
      ∀ r ∈ (upsert_game_by_source
          (upsert_game_by_source { rows := [row0], nextId := 5 } 20
            gSteam42).1 20
          { gSteam42 with title := "New Title" }).1.rows,
        sourceKeyMatches { gSteam42 with title := "New Title" } r = true →
        r.title = "New Title" ∧ r.genre = some "RPG" :=
  (upsert_game_by_source_spec { rows := [row0], nextId := 5 } 20
      gSteam42).2.2 { gSteam42 with title := "New Title" } rfl rfl
    (by decide) (by decide) (by decide) (by decide)

/-- The success counter threaded through one source's upsert loop equals the
number of successful upsert operations. -/
theorem runUpserts_snd_eq (upsert : DB → Game → Option (DB × Int))
    (gs : List DiscoveredGame) (db : DB) :
    (runUpserts upsert gs db).2 = upsertSuccessCount upsert gs db := by
  induction gs generalizing db with
  | nil => rfl
  | cons dg rest ih =>
    simp only [runUpserts, upsertSuccessCount]
    rcases hu : upsert db (discovered_to_game dg) with - | ⟨db1, i⟩ <;>
      simp only [hu]
    · exact ih db
    · rcases hr : runUpserts upsert rest db1 with ⟨db2, n⟩
      have h := ih db1
      rw [hr] at h
      have h2 : n = upsertSuccessCount upsert rest db1 := h
      simp [hr, h2]

/-- At most one success is counted per discovered entry. -/
theorem upsertSuccessCount_le_length (upsert : DB → Game → Option (DB × Int))
    (gs : List DiscoveredGame) (db : DB) :
    upsertSuccessCount upsert gs db ≤ gs.length := by
  induction gs generalizing db with
  | nil => exact Nat.le_refl 0
  | cons dg rest ih =>
    simp only [upsertSuccessCount, List.length_cons]
    rcases hu : upsert db (discovered_to_game dg) with - | ⟨db1, i⟩
    · exact Nat.le_succ_of_le (ih db)
    · exact Nat.succ_le_succ (ih db1)

/-- C3: the indexing pass always returns success; when both scans succeed
the discovered count is the sum of the two scan lengths and the upserted
count is the number of successful upsert operations (never exceeding the
discovered count); and a failed scan contributes zero while leaving the
other source's processing exactly as if the failed scan had found
nothing. -/
theorem index_all_spec (upsert : DB → Game → Option (DB × Int))
    (steamScan epicScan : Except String (List DiscoveredGame)) (db : DB) :
    (∃ res, index_all upsert steamScan epicScan db = .ok res) ∧
    (∀ sg eg, steamScan = .ok sg → epicScan = .ok eg →
      sg.length + eg.length < U32 →
      ∃ db2, index_all upsert steamScan epicScan db = .ok (db2,
        { discovered := sg.length + eg.length,
          upserted := upsertSuccessCount upsert sg db +
            upsertSuccessCount upsert eg (runUpserts upsert sg db).1 }) ∧
        upsertSuccessCount upsert sg db +
          upsertSuccessCount upsert eg (runUpserts upsert sg db).1 ≤
          sg.length + eg.length) ∧
    (∀ e, steamScan = .error e →
      index_all upsert steamScan epicScan db =
        index_all upsert (.ok []) epicScan db) ∧
    (∀ e, epicScan = .error e →
      index_all upsert steamScan epicScan db =
        index_all upsert steamScan (.ok []) db) := by
  refine ⟨?_, ?_, ?_, ?_⟩
  · exact ⟨_, rfl⟩
  · intro sg eg hsg heg hlt
    rcases hr1 : runUpserts upsert sg db with ⟨db1, n1⟩
    rcases hr2 : runUpserts upsert eg db1 with ⟨db2, n2⟩
    have hn1 : n1 = upsertSuccessCount upsert sg db := by
      have h := runUpserts_snd_eq upsert sg db
      rw [hr1] at h
      exact h
    have hn2 : n2 = upsertSuccessCount upsert eg db1 := by
      have h := runUpserts_snd_eq upsert eg db1
      rw [hr2] at h
      exact h
    have hle1 : upsertSuccessCount upsert sg db ≤ sg.length :=
      upsertSuccessCount_le_length upsert sg db
    have hle2 : upsertSuccessCount upsert eg db1 ≤ eg.length :=
      upsertSuccessCount_le_length upsert eg db1
    have hrw : (runUpserts upsert sg db).1 = db1 := by rw [hr1]
    refine ⟨db2, ?_, ?_⟩
    · simp only [index_all, hsg, heg, hr1, hr2]
      have hs1 : sg.length % U32 = sg.length := Nat.mod_eq_of_lt (by omega)
      have hs2 : eg.length % U32 = eg.length := Nat.mod_eq_of_lt (by omega)
      have hsum : n1 + n2 < U32 := by omega
      rw [hs1, hs2, Nat.mod_eq_of_lt hlt, Nat.mod_eq_of_lt hsum, hn1, hn2]
    · exact Nat.add_le_add hle1 hle2
  · intro e he
    rw [he]
    simp [index_all, runUpserts]
  · intro e he
    rw [he]
    simp [index_all, runUpserts]

/-- C3 witness: with the Steam scan failing and a one-entry Epic scan, the
pass behaves as if the Steam scan had found nothing. -/
theorem index_all_spec_witness :
    index_all alwaysInsert (.error "steam root not found") (.ok [dgEpicA])
        { rows := [], nextId := 1 } =
      index_all alwaysInsert (.ok []) (.ok [dgEpicA])
        { rows := [], nextId := 1 } :=
  (index_all_spec alwaysInsert (.error "steam root not found")
      (.ok [dgEpicA]) { rows := [], nextId := 1 }).2.2.1
    "steam root not found" rfl

/-- C7: creating a game with no catalog id and no executable path returns a
record with icon_path, cover_url, description, genre and catalog id all
absent, the supplied title/platform/status, and playtime 0, independently of
the enrichment oracles; the only failure reported is a failure of the final
insert. -/
theorem create_game_no_enrichment_spec (gd : Int → Except String RawgGame)
    (dOk : Bool) (eOk : String → String → Bool) (iconsDir : String) (db : DB)
    (now : Nat) (input : CreateGameInput) (h1 : input.rawg_id = none)
    (h2 : input.exe_path = none) :
    (∃ db2 game, create_game gd dOk eOk false iconsDir db now input =
        .ok (db2, game) ∧
      game.icon_path = none ∧ game.cover_url = none ∧
      game.description = none ∧ game.genre = none ∧ game.rawg_id = none ∧
      game.title = input.title ∧ game.platform = input.platform ∧
      game.status = input.status ∧ game.playtime_hours = 0) ∧
    create_game gd dOk eOk true iconsDir db now input =
      .error "insert failed" := by
  constructor
  · simp only [create_game, h1, h2, insert_game, Option.isNone_none,
      if_true, Bool.false_eq_true, if_false]
    exact ⟨_, _, rfl, rfl, rfl, rfl, rfl, rfl, rfl, rfl, rfl, rfl⟩
  · simp only [create_game, h1, h2, Option.isNone_none, if_true]

/-- C7 witness: on the concrete no-enrichment input, a failing insert is the
reported error. -/
theorem create_game_no_enrichment_spec_witness :
    create_game (fun _ => .error "network down") false (fun _ _ => false)
        true "icons" { rows := [], nextId := 1 } 4 inputPlain =
      .error "insert failed" :=
  (create_game_no_enrichment_spec (fun _ => .error "network down") false
    (fun _ _ => false) "icons" { rows := [], nextId := 1 } 4 inputPlain rfl
    rfl).2

/-- C1 counterexample: a concrete create call whose catalog lookup returns a
cover URL but whose download fails still returns icon_path set to the
per-catalog-id file path, contradicting the claim that icon_path is absent
in this situation. -/
theorem create_game_download_failure_counterexample :
    (create_game (fun _ => .ok rgCeleste) false (fun _ _ => false) false
        "icons" { rows := [], nextId := 1 } 4 inputRawg77).map
      (fun p => (p.2.cover_url, p.2.icon_path)) =
    .ok (some "https://rawg.example/celeste.jpg",
      some (pathJoin "icons" (toString (77 : Int) ++ ".jpg"))) := rfl

/-- C1 (amended): when the catalog lookup succeeds with a cover URL, the
returned record has cover_url set to the catalog's URL and icon_path set to
the per-catalog-id file path regardless of the download outcome (the source
discards the download result); the create still succeeds. -/
theorem create_game_cover_download_spec (gd : Int → Except String RawgGame)
    (dOk : Bool) (eOk : String → String → Bool) (iconsDir : String) (db : DB)
    (now : Nat) (input : CreateGameInput) (rid : Int) (rg : RawgGame)
    (url : String) (hrid : input.rawg_id = some rid)
    (hfetch : gd rid = .ok rg) (hurl : rg.background_image = some url) :
    ∃ db2 game, create_game gd dOk eOk false iconsDir db now input =
        .ok (db2, game) ∧
      game.cover_url = some url ∧
      game.icon_path = some (pathJoin iconsDir (toString rid ++ ".jpg")) ∧
      game.rawg_id = some rid := by
  simp only [create_game, hrid, hfetch, hurl, insert_game,
    Option.isNone_some, Bool.false_eq_true, if_false]
  exact ⟨_, _, rfl, rfl, rfl, rfl⟩

/-- C1 witness: the amended statement instantiated at the concrete failing
download call. -/
theorem create_game_cover_download_spec_witness :
    ∃ db2 game, create_game (fun _ => .ok rgCeleste) false (fun _ _ => false)
        false "icons" { rows := [], nextId := 1 } 4 inputRawg77 =
        .ok (db2, game) ∧
      game.cover_url = some "https://rawg.example/celeste.jpg" ∧
      game.icon_path =
        some (pathJoin "icons" (toString (77 : Int) ++ ".jpg")) ∧
      game.rawg_id = some 77 :=
  create_game_cover_download_spec (fun _ => .ok rgCeleste) false
    (fun _ _ => false) "icons" { rows := [], nextId := 1 } 4 inputRawg77 77
    rgCeleste "https://rawg.example/celeste.jpg" rfl rfl rfl

end GameTracker
